import Mathlib

/-!
Verification of the HAC grade-scraping client (custom_components/hac_grades).

The Python source is shallowly embedded below.  HTML parsing through
BeautifulSoup is treated as an external collaborator: a rendered document is
modelled by the results of the fixed BeautifulSoup queries the client makes
(detected student id, course-block links, per-slot parsed course records),
while every piece of logic the claims concern — score/status classification,
percentage computation, category statistics, weighted averages, the
roster/grade merge, the per-quarter fetch loop and the login retry loop — is
translated statement by statement from hac_client.py and const.py.
Python floats are modelled as exact rationals; Python round(x, 2) is modelled
by round-half-to-even at two decimals.
-/

namespace HacGrades

/-! ### String helpers (Python `in`, `strip`, `upper`) -/

/-- Does the pattern occur at the head of the character list? -/
def leadsWith : List Char → List Char → Bool
  | [], _ => true
  | _ :: _, [] => false
  | a :: as, b :: bs => a == b && leadsWith as bs

/-- Does the pattern occur anywhere inside the character list?
(Model of Python substring containment.) -/
def occursIn (pat : List Char) : List Char → Bool
  | [] => pat.isEmpty
  | b :: bs => leadsWith pat (b :: bs) || occursIn pat bs

/-- Python `pat in s` on strings. -/
def isSubstr (pat s : String) : Bool := occursIn pat.data s.data

/-- ASCII whitespace recognised by Python `str.strip()` (the inputs here are
ASCII score/label texts). -/
def isSpaceChar (c : Char) : Bool :=
  c == ' ' || c == '\t' || c == '\n' || c == '\r' || c == '\x0b' || c == '\x0c'

/-- Python `str.strip()`. -/
def pyStrip (s : String) : String :=
  ⟨((s.data.dropWhile isSpaceChar).reverse.dropWhile isSpaceChar).reverse⟩

/-- Python `str.upper()` restricted to ASCII, which is all the source feeds it. -/
def asciiUpper (s : String) : String := ⟨s.data.map Char.toUpper⟩

/-! ### Python `float()` on decimal numerals, and `round(x, 2)` -/

/-- Value of a nonempty digit string, `none` on empty input or a non-digit. -/
def natOfDigits? (l : List Char) : Option Nat :=
  match l with
  | [] => none
  | _ =>
    l.foldlM (fun acc c => if c.isDigit then some (acc * 10 + (c.toNat - 48)) else none) 0

/-- Digits with an optional single decimal point, as an exact rational.
At least one digit must be present overall (`"12"`, `"12."`, `".5"`, `"12.5"`). -/
def decimalOfChars? (l : List Char) : Option ℚ :=
  let ip := l.takeWhile Char.isDigit
  let rest := l.dropWhile Char.isDigit
  match rest with
  | [] => (natOfDigits? ip).map (fun n => (n : ℚ))
  | '.' :: fp =>
    if fp.all Char.isDigit && (ip ≠ [] || fp ≠ []) then
      let ipv : ℚ := ((ip.foldl (fun acc c => acc * 10 + (c.toNat - 48)) 0 : Nat) : ℚ)
      let fpv : ℚ := ((fp.foldl (fun acc c => acc * 10 + (c.toNat - 48)) 0 : Nat) : ℚ)
      some (ipv + fpv / (10 : ℚ) ^ fp.length)
    else none
  | _ => none

/-- Model of Python `float(s)` on the plain signed decimal numerals that occur
as score and point texts (an exotic accepted form such as an exponent or
`"inf"` never appears in those table cells; on every other input `float`
raises `ValueError`, modelled as `none`). `float` strips whitespace itself. -/
def parseFloat? (s : String) : Option ℚ :=
  match (pyStrip s).data with
  | '+' :: t => decimalOfChars? t
  | '-' :: t => (decimalOfChars? t).map (fun q => -q)
  | t => decimalOfChars? t

/-- Round a rational to the nearest integer, ties to even
(the rounding Python `round` performs on exactly representable values). -/
def roundHalfEven (q : ℚ) : ℤ :=
  let f := ⌊q⌋
  let r := q - f
  if r < 1 / 2 then f
  else if 1 / 2 < r then f + 1
  else if f % 2 = 0 then f else f + 1

/-- Model of Python `round(x, 2)`. -/
def round2 (q : ℚ) : ℚ := (roundHalfEven (q * 100) : ℚ) / 100

/-! ### Assignment parsing (`HACClient._parse_assignment`) -/

/-- Assignment status tags (const.py `STATUS_*`). -/
inductive Status where
  | scored
  | nhi
  | nyg
  | tltc
  | sbf
  | exempt
deriving DecidableEq, Repr

/-- One `td` cell of an assignment row: its text and, when the cell holds a
link, the link's text (`cells[2].find("a")`). -/
structure Cell where
  text : String
  linkText : Option String
deriving DecidableEq, Repr

/-- A parsed assignment record, mirroring the dict `_parse_assignment` returns. -/
structure Assignment where
  title : String
  due_date : String
  assigned_date : String
  category : String
  raw_score : String
  score : Option ℚ
  total_points : Option ℚ
  status : Status
  percentage : Option ℚ
deriving DecidableEq, Repr

/-- The score/status classification chain of `_parse_assignment`
(hac_client.py lines 913-939).  `none` models the `ValueError` that escapes
when an SBF row's extra column (cells[7]) is not numeric — the outer
`except` then drops the whole row. -/
def parseScoreStatus (raw : String) (cells : List Cell) : Option (Option ℚ × Status) :=
  let u := asciiUpper raw
  if isSubstr "NHI" u then some (some 0, Status.nhi)
  else if isSubstr "TLTC" u then some (some 0, Status.tltc)
  else if isSubstr "X" u then some (none, Status.exempt)
  else if isSubstr "SBF" u then
    match cells.get? 7 with
    | some c =>
      match parseFloat? (pyStrip c.text) with
      | some v => some (some v, Status.sbf)
      | none => none
    | none => some (some 0, Status.sbf)
  else if isSubstr "NYG" u || raw == "" then some (none, Status.nyg)
  else
    match parseFloat? raw with
    | some v => some (some v, Status.scored)
    | none => some (none, Status.nyg)

/-- `HACClient._parse_assignment` (hac_client.py lines 897-968).  Indexing a
missing cell raises `IndexError`, caught by the surrounding `except`, hence
`none` when fewer than six cells are present. -/
def parseAssignment (cells : List Cell) : Option Assignment :=
  match cells.get? 0, cells.get? 1, cells.get? 2, cells.get? 3, cells.get? 4, cells.get? 5 with
  | some c0, some c1, some c2, some c3, some c4, some c5 =>
    let due_date := pyStrip c0.text
    let assigned_date := pyStrip c1.text
    let title := match c2.linkText with | some t => pyStrip t | none => ""
    if title == "" then none
    else
      let category := pyStrip c3.text
      let raw_score := pyStrip c4.text
      let total_points_str := pyStrip c5.text
      match parseScoreStatus raw_score cells with
      | none => none
      | some (score, status) =>
        let total_points : Option ℚ :=
          if total_points_str ≠ "" ∧ asciiUpper total_points_str ≠ "N/A" then
            parseFloat? total_points_str
          else none
        let percentage : Option ℚ :=
          match score, total_points with
          | some s, some t => if t ≠ 0 then some (round2 (s / t * 100)) else none
          | _, _ => none
        some { title, due_date, assigned_date, category, raw_score,
               score, total_points, status, percentage }
  | _, _, _, _, _, _ => none

/-! ### Category statistics (`HACClient._calculate_category_stats`) -/

/-- Accumulated earned/possible points for one category. -/
structure CatAcc where
  earned : ℚ
  possible : ℚ
deriving DecidableEq, Repr

/-- One category's final statistics (earned, possible, derived percentage). -/
structure CatStat where
  earned : ℚ
  possible : ℚ
  percentage : Option ℚ
deriving DecidableEq, Repr

/-- The initial `category_stats` dict, keys in Python insertion order. -/
def catInit : List (String × CatAcc) :=
  [("PRACTICE", ⟨0, 0⟩), ("PROCESS", ⟨0, 0⟩), ("PRODUCT", ⟨0, 0⟩)]

/-- In-place update of one key of the stats dict (keys never change). -/
def updateEntry (k : String) (f : CatAcc → CatAcc) :
    List (String × CatAcc) → List (String × CatAcc)
  | [] => []
  | (k', v) :: rest =>
    if k' == k then (k', f v) :: rest else (k', v) :: updateEntry k f rest

/-- `assignment["status"] in [STATUS_SCORED, STATUS_NHI, STATUS_SBF, STATUS_TLTC]`. -/
def qualifies (st : Status) : Bool :=
  st == Status.scored || st == Status.nhi || st == Status.sbf || st == Status.tltc

/-- One loop iteration of `_calculate_category_stats` (lines 978-985):
category membership is checked first, then status, then the two point sums
(`if assignment["total_points"]:` is Python truthiness, i.e. non-null and
non-zero). -/
def catStep (stats : List (String × CatAcc)) (a : Assignment) : List (String × CatAcc) :=
  let cat := asciiUpper a.category
  if stats.any (fun e => e.1 == cat) then
    if qualifies a.status then
      updateEntry cat (fun acc =>
        let acc :=
          match a.score with
          | some s => { acc with earned := acc.earned + s }
          | none => acc
        match a.total_points with
        | some t => if t ≠ 0 then { acc with possible := acc.possible + t } else acc
        | none => acc) stats
    else stats
  else stats

/-- `HACClient._calculate_category_stats` (hac_client.py lines 970-994). -/
def calcCategoryStats (assignments : List Assignment) : List (String × CatStat) :=
  (assignments.foldl catStep catInit).map (fun e =>
    let pct : Option ℚ :=
      if e.2.possible > (0 : ℚ) then some (round2 (e.2.earned / e.2.possible * 100))
      else none
    (e.1, { earned := e.2.earned, possible := e.2.possible, percentage := pct }))

/-! ### Weighted overall percentage (`HACClient._calculate_weighted_percentage`) -/

/-- const.py `CATEGORY_WEIGHTS`. -/
def categoryWeights : List (String × ℚ) :=
  [("PRACTICE", 0.20), ("PROCESS", 0.30), ("PRODUCT", 0.50)]

/-- `CATEGORY_WEIGHTS[cat]`; the lookup always succeeds because
`_calculate_weighted_percentage` only ever receives the fixed three keys
produced by `_calculate_category_stats`. -/
def weightOf (cat : String) : ℚ :=
  ((categoryWeights.find? (fun e => e.1 == cat)).map (fun e => e.2)).getD 0

/-- `HACClient._calculate_weighted_percentage` (hac_client.py lines 996-1009). -/
def calcWeightedPercentage (stats : List (String × CatStat)) : Option ℚ :=
  let acc := stats.foldl
    (fun (acc : ℚ × ℚ) e =>
      if e.2.possible > 0 then
        (acc.1 + e.2.earned / e.2.possible * weightOf e.1, acc.2 + weightOf e.1)
      else acc)
    (0, 0)
  if acc.2 > 0 then some (round2 (acc.1 / acc.2 * 100)) else none

/-! ### Courses, roster extraction and the roster/grade merge -/

/-- One row of HAC's own category-breakdown table (`_parse_hac_categories`). -/
structure HacCategory where
  category : String
  points_earned : String
  points_possible : String
  percentage : String
  weight : String
  weighted_average : Option String
deriving DecidableEq, Repr

/-- A per-course record, mirroring the dict `_parse_course` returns (and the
placeholder dict of `_fetch_quarter_grades`). -/
structure Course where
  course : String
  course_index : Nat
  total_assignments : Nat
  not_hand_in : Nat
  not_yet_graded : Nat
  too_late_to_count : Nat
  score_below_fifty : Nat
  overall_percentage : Option ℚ
  hac_overall_percentage : Option ℚ
  hac_points_earned : Option String
  hac_points_possible : Option String
  assignments : List Assignment
  category_breakdown : List (String × CatStat)
  hac_category_breakdown : List HacCategory
  hac_last_updated : Option String
  days_since_update : Option Int
deriving DecidableEq, Repr

/-- The placeholder built for a roster course without grade data
(hac_client.py lines 793-810; `category_breakdown` is the empty dict there). -/
def placeholderCourse (name : String) (idx : Nat) : Course :=
  { course := name, course_index := idx, total_assignments := 0,
    not_hand_in := 0, not_yet_graded := 0, too_late_to_count := 0,
    score_below_fifty := 0, overall_percentage := none,
    hac_overall_percentage := none, hac_points_earned := none,
    hac_points_possible := none, assignments := [], category_breakdown := [],
    hac_category_breakdown := [], hac_last_updated := none,
    days_since_update := none }

/-- `for idx, course_div in enumerate(...)` over the AssignmentClass divs;
a div contributes `(stripped link text, idx)` when its header link exists and
its stripped text is nonempty, and the index advances for every div. -/
def collectCourses (idx : Nat) : List (Option String) → List (String × Nat)
  | [] => []
  | d :: ds =>
    match d with
    | some t =>
      let s := pyStrip t
      if s ≠ "" then (s, idx) :: collectCourses (idx + 1) ds
      else collectCourses (idx + 1) ds
    | none => collectCourses (idx + 1) ds

/-- `HACClient._extract_all_courses_from_html` (hac_client.py lines 500-530),
over the per-div header-link texts. -/
def extractAllCourses (divLinks : List (Option String)) : List (String × Nat) :=
  collectCourses 0 divLinks

/-- The dict comprehension `{c["course"]: c for c in courses_with_grades}`:
per name it keeps the last record with that name. -/
def gradeFor? (graded : List Course) (name : String) : Option Course :=
  (graded.filter (fun c => c.course == name)).getLast?

/-- The roster/grade merge of `_fetch_quarter_grades`
(hac_client.py lines 780-811). -/
def mergeCourses (roster : List (String × Nat)) (graded : List Course) : List Course :=
  roster.map (fun p =>
    match gradeFor? graded p.1 with
    | some c => c
    | none => placeholderCourse p.1 p.2)

/-! ### Overall summary (`HACClient._calculate_overall_summary`) -/

/-- A calendar date (year, month, day), the payload of a parsed
`"%Y-%m-%d"` string. -/
abbrev Date := Nat × Nat × Nat

def isLeapYear (y : Nat) : Bool :=
  (y % 4 == 0 && y % 100 != 0) || y % 400 == 0

def daysInMonth (y m : Nat) : Nat :=
  if m == 2 then (if isLeapYear y then 29 else 28)
  else if m == 4 || m == 6 || m == 9 || m == 11 then 30
  else 31

/-- Split a character list on a separator character. -/
def splitOnChar (c : Char) : List Char → List (List Char)
  | [] => [[]]
  | x :: xs =>
    if x == c then [] :: splitOnChar c xs
    else
      match splitOnChar c xs with
      | [] => [[x]]
      | g :: gs => (x :: g) :: gs

/-- Model of `datetime.strptime(s, "%Y-%m-%d")`: three dash-separated digit
groups (year up to four digits), validated against the calendar;
`ValueError` is modelled as `none`. -/
def parseDateYMD (s : String) : Option Date :=
  match splitOnChar '-' s.data with
  | [ys, ms, ds] =>
    match natOfDigits? ys, natOfDigits? ms, natOfDigits? ds with
    | some y, some m, some d =>
      if ys.length ≤ 4 && 1 ≤ y && 1 ≤ m && m ≤ 12 && 1 ≤ d && d ≤ daysInMonth y m
      then some (y, m, d) else none
    | _, _, _ => none
  | _ => none

/-- `datetime` comparison on dates (lexicographic on year, month, day). -/
def dateLt (a b : Date) : Bool :=
  a.1 < b.1 || (a.1 == b.1 && (a.2.1 < b.2.1 || (a.2.1 == b.2.1 && a.2.2 < b.2.2)))

/-- Zero-padded decimal rendering, for `strftime`. -/
def padNat (w n : Nat) : String :=
  let ds := Nat.toDigits 10 n
  ⟨List.replicate (w - ds.length) '0' ++ ds⟩

/-- `strftime("%Y-%m-%d")`. -/
def formatDateYMD (d : Date) : String :=
  padNat 4 d.1 ++ "-" ++ padNat 2 d.2.1 ++ "-" ++ padNat 2 d.2.2

/-- The dict `_calculate_overall_summary` returns. -/
structure OverallSummary where
  course_count : Nat
  gpa_like_average : Option ℚ
  weighted_gpa_like_average : Option ℚ
  latest_update_date : Option String
  days_since_latest_update : Option Int
deriving DecidableEq, Repr

/-- Accumulator of the course loop in `_calculate_overall_summary`. -/
structure SummAcc where
  gradeSum : ℚ
  gradeCount : Nat
  weightedSum : ℚ
  weightedPossible : ℚ
  mostRecent : Option Date
deriving DecidableEq, Repr

/-- One iteration of the course loop (hac_client.py lines 1108-1128).
`if course["hac_points_possible"]:` and `if course["hac_last_updated"]:` are
Python truthiness on an optional string (non-null and nonempty). -/
def summStep (acc : SummAcc) (c : Course) : SummAcc :=
  let acc :=
    match c.overall_percentage with
    | some p =>
      let acc := { acc with gradeSum := acc.gradeSum + p, gradeCount := acc.gradeCount + 1 }
      match c.hac_points_possible with
      | some s =>
        if s ≠ "" then
          match parseFloat? s with
          | some poss =>
            { acc with weightedSum := acc.weightedSum + p * poss,
                       weightedPossible := acc.weightedPossible + poss }
          | none => acc
        else acc
      | none => acc
    | none => acc
  match c.hac_last_updated with
  | some s =>
    if s ≠ "" then
      match parseDateYMD s with
      | some d =>
        match acc.mostRecent with
        | none => { acc with mostRecent := some d }
        | some m => if dateLt m d then { acc with mostRecent := some d } else acc
      | none => acc
    else acc
  | none => acc

/-- `HACClient._calculate_overall_summary` (hac_client.py lines 1091-1145).
`daysSince` abstracts `(datetime.now() - d).days`, which depends on the wall
clock. -/
def calcOverallSummary (daysSince : Date → Int) (courses : List Course) : OverallSummary :=
  if courses.isEmpty then
    { course_count := 0, gpa_like_average := none, weighted_gpa_like_average := none,
      latest_update_date := none, days_since_latest_update := none }
  else
    let acc := courses.foldl summStep ⟨0, 0, 0, 0, none⟩
    { course_count := courses.length
      gpa_like_average :=
        if acc.gradeCount > 0 then some (round2 (acc.gradeSum / (acc.gradeCount : ℚ)))
        else none
      weighted_gpa_like_average :=
        if acc.weightedPossible > (0 : ℚ)
        then some (round2 (acc.weightedSum / acc.weightedPossible))
        else none
      latest_update_date := acc.mostRecent.map formatDateYMD
      days_since_latest_update := acc.mostRecent.map daysSince }

/-! ### The per-quarter fetch and the fetch orchestration -/

/-- A rendered assignments document, modelled by the results of the
BeautifulSoup queries `_fetch_quarter_grades` performs on it:
the student id `_extract_student_id` would return, the header-link text of
each AssignmentClass div, and the per-slot course records `_parse_course`
yields for the up-to-eight assignment tables. -/
structure Doc where
  extractedStudentId : Option String
  courseDivs : List (Option String)
  graded : List Course
deriving DecidableEq, Repr

/-- The client's mutable per-subject fields (`_cookies` as a truthiness flag,
`_detected_student_id`, `_initial_quarter`, `_initial_html`). -/
structure ClientState where
  cookies : Bool
  detectedId : Option String
  initialQuarter : Option String
  initialDoc : Option Doc

/-- The fetch environment: the configured student id, the browserless
quarter fetch (`_fetch_quarter_with_browserless`, `none` for a falsy/failed
response), the login procedure invoked when no cookies are present
(abstracted; the claims below all start from a logged-in state), and the
wall-clock day difference. -/
structure Ctx where
  requestedId : Option String
  env : String → Option Doc
  loginFn : ClientState → Option ClientState
  daysSince : Date → Int

/-- The dict `_fetch_quarter_grades` returns on success. -/
structure QuarterData where
  overall_summary : OverallSummary
  courses : List Course
deriving DecidableEq, Repr

/-- The dict `fetch_grades` returns on success (its `last_updated` wall-clock
timestamp is omitted from the model). -/
structure FetchResult where
  quarters : List (String × QuarterData)
  student_id : Option String
deriving DecidableEq, Repr

/-- Roster extraction, merge and summary for one parsed document
(hac_client.py lines 767-820). -/
def processDoc (ctx : Ctx) (doc : Doc) : QuarterData :=
  let roster := extractAllCourses doc.courseDivs
  let courses := mergeCourses roster doc.graded
  { overall_summary := calcOverallSummary ctx.daysSince courses, courses := courses }

/-- `HACClient._fetch_quarter_grades` (hac_client.py lines 731-824):
cached-HTML reuse, the opportunistic student-id check (performed only while
`_detected_student_id` is unset, and recording the detected id before the
comparison), then extraction and merge.  A falsy (empty) extracted id is
treated as not found; the identity comparison fires only when the
configured id is truthy and differs. -/
def fetchQuarterGrades (ctx : Ctx) (st : ClientState) (quarter : String) :
    ClientState × Except String QuarterData :=
  match
    (if st.initialQuarter = some quarter ∧ st.initialDoc.isSome then st.initialDoc
     else ctx.env quarter) with
  | none => (st, Except.error ("Failed to fetch HTML for " ++ quarter))
  | some doc =>
    if st.detectedId.isNone then
      match doc.extractedStudentId with
      | some d =>
        if d = "" then (st, Except.ok (processDoc ctx doc))
        else
          let st' := { st with detectedId := some d }
          match ctx.requestedId with
          | some s =>
            if s ≠ "" ∧ s ≠ d then
              (st', Except.error
                ("Student ID mismatch. Expected " ++ s ++ ", found " ++ d))
            else (st', Except.ok (processDoc ctx doc))
          | none => (st', Except.ok (processDoc ctx doc))
      | none => (st, Except.ok (processDoc ctx doc))
    else (st, Except.ok (processDoc ctx doc))

/-- The quarters `fetch_grades` iterates. -/
def quartersList : List String := ["Q1", "Q2", "Q3", "Q4"]

/-- One iteration of the quarter loop of `fetch_grades` (lines 667-674):
a quarter whose fetch returns an error dict is logged and omitted. -/
def fgStep (ctx : Ctx) (acc : ClientState × List (String × QuarterData)) (q : String) :
    ClientState × List (String × QuarterData) :=
  let r := fetchQuarterGrades ctx acc.1 q
  match r.2 with
  | Except.ok qd => (r.1, acc.2 ++ [(q, qd)])
  | Except.error _ => (r.1, acc.2)

/-- `result["student_id"] = self._detected_student_id or self.student_id`. -/
def resolvedStudentId (detected requested : Option String) : Option String :=
  match detected with
  | some d => if d == "" then requested else some d
  | none => requested

/-- `HACClient.fetch_grades` (hac_client.py lines 656-696). -/
def fetchGrades (ctx : Ctx) (st : ClientState) : ClientState × Except String FetchResult :=
  match (if st.cookies then some st else ctx.loginFn st) with
  | none => (st, Except.error "Login failed")
  | some st0 =>
    let r := quartersList.foldl (fgStep ctx) (st0, [])
    if r.2.isEmpty then (r.1, Except.error "No quarter data could be fetched")
    else
      (r.1, Except.ok
        { quarters := r.2,
          student_id := resolvedStudentId r.1.detectedId ctx.requestedId })

/-- Is an `Except` a success? -/
def exceptOk {ε α : Type} : Except ε α → Bool
  | Except.ok _ => true
  | Except.error _ => false

/-! ### Login retry loop (`HACClient.login`) -/

/-- Outcome of one browserless automation call, as the `try` body of `login`
observes it: a transport failure (`aiohttp.ClientConnectorError` or
`asyncio.TimeoutError`), a non-200 response, a JSON body with an `error`
key, any other exception, or a completed browser run carrying the final URL,
the banner student id (`selectedStudentId`) and the quarter
`_detect_quarter_from_html` reads from the returned HTML. -/
inductive CallOutcome where
  | transportFail
  | badStatus
  | errorKey
  | otherError
  | completed (url : String) (selectedId : Option String) (initialQuarter : Option String)

/-- What the environment provides at one loop iteration: the readiness-probe
answer (`_check_browserless_ready`) and the automation call's outcome. -/
structure AttemptEnv where
  ready : Bool
  outcome : CallOutcome

/-- What `login` stores on success. -/
structure LoginState where
  detectedId : Option String
  initialQuarter : Option String
deriving DecidableEq, Repr

/-- Result of the login loop: the returned boolean, the stored state on
success, the number of automation calls issued, and the total time slept. -/
structure LoginResult where
  success : Bool
  state : Option LoginState
  calls : Nat
  slept : ℚ
deriving DecidableEq, Repr

/-- hac_client.py line 65: `retry_delays`. -/
def retryDelays : List ℚ := [5, 10, 15, 20, 30, 45, 60, 90, 120, 150, 180, 240]

/-- The `for attempt in range(max_retries)` loop of `login`
(hac_client.py lines 60-302), by recursion on the remaining iterations
(`remaining = 12 - attempt` throughout).  After attempt 0 a failed readiness
probe sleeps the scheduled delay and continues without an automation call;
attempt 0 first sleeps the random stagger jitter; a transport failure on an
attempt before the last sleeps the scheduled delay and retries, on the last
attempt it returns failure; every other outcome returns immediately, with
the final URL classified exactly as lines 222-233 do. -/
def loginAux (envA : Nat → AttemptEnv) (jitter : ℚ) :
    Nat → Nat → Nat → ℚ → LoginResult
  | 0, _, calls, slept => { success := false, state := none, calls := calls, slept := slept }
  | r + 1, attempt, calls, slept =>
    if attempt > 0 ∧ (envA attempt).ready = false then
      loginAux envA jitter r (attempt + 1) calls (slept + retryDelays.getD attempt 240)
    else
      let slept := if attempt == 0 then slept + jitter else slept
      match (envA attempt).outcome with
      | CallOutcome.transportFail =>
        if attempt < 11 then
          loginAux envA jitter r (attempt + 1) (calls + 1) (slept + retryDelays.getD attempt 0)
        else { success := false, state := none, calls := calls + 1, slept := slept }
      | CallOutcome.badStatus =>
        { success := false, state := none, calls := calls + 1, slept := slept }
      | CallOutcome.errorKey =>
        { success := false, state := none, calls := calls + 1, slept := slept }
      | CallOutcome.otherError =>
        { success := false, state := none, calls := calls + 1, slept := slept }
      | CallOutcome.completed url sid iq =>
        if isSubstr "/Error" url then
          { success := false, state := none, calls := calls + 1, slept := slept }
        else if isSubstr "/LogOn" url then
          { success := false, state := none, calls := calls + 1, slept := slept }
        else
          { success := true,
            state := some
              { detectedId :=
                  match sid with
                  | some x => if x == "" then none else some x
                  | none => none,
                initialQuarter := iq },
            calls := calls + 1, slept := slept }

/-- `HACClient.login` with `max_retries = 12`. -/
def loginModel (envA : Nat → AttemptEnv) (jitter : ℚ) : LoginResult :=
  loginAux envA jitter 12 0 0 0

/-- Sum of the first `n` scheduled retry delays. -/
def sumDelays (n : Nat) : ℚ := (retryDelays.take n).sum

/-! ### Spec-side status dispatch (for claim C5)

The spec describes the raw-score classification as an explicit ordered list
of (predicate, status) pairs evaluated in fixed priority order, with numeric
parsing as the final fallback.  The definitions below follow the spec's
words; claim C5 is the refinement of the code's `if` chain to this table. -/

/-- The spec's ordered (predicate, status) pairs: NHI, TLTC, Exempt,
ScoreBelowFifty, NotYetGraded (including empty text). -/
def dispatchPairs : List ((String → Bool) × Status) :=
  [ (fun r => isSubstr "NHI" (asciiUpper r), Status.nhi),
    (fun r => isSubstr "TLTC" (asciiUpper r), Status.tltc),
    (fun r => isSubstr "X" (asciiUpper r), Status.exempt),
    (fun r => isSubstr "SBF" (asciiUpper r), Status.sbf),
    (fun r => isSubstr "NYG" (asciiUpper r) || r == "", Status.nyg) ]

/-- Spec-side dispatch: first matching predicate wins; otherwise numeric
parsing decides between Scored and NotYetGraded. -/
def statusDispatch (raw : String) : Status :=
  match dispatchPairs.find? (fun p => p.1 raw) with
  | some p => p.2
  | none => if (parseFloat? raw).isSome then Status.scored else Status.nyg

/-- Claim C5: for every assignment row that yields a record, the status tag
assigned by `_parse_assignment`'s classification chain equals the ordered
pattern dispatch with fixed precedence NHI, TLTC, Exempt, ScoreBelowFifty,
NotYetGraded (including empty text), then numeric parsing as fallback —
explicit status markers are always checked before numeric parsing. -/
theorem parse_status_is_ordered_dispatch (raw : String) (cells : List Cell)
    (sc : Option ℚ) (st : Status)
    (h : parseScoreStatus raw cells = some (sc, st)) :
    st = statusDispatch raw := by
  unfold parseScoreStatus at h
  unfold statusDispatch dispatchPairs
  simp only [List.find?] at *
  split at h
  · rename_i hc; simp only [hc]; cases h; rfl
  · split at h
    · rename_i hc1 hc2
      simp only [Bool.not_eq_true] at hc1
      simp only [hc1, hc2]; cases h; rfl
    · split at h
      · rename_i hc1 hc2 hc3
        simp only [Bool.not_eq_true] at hc1 hc2
        simp only [hc1, hc2, hc3]; cases h; rfl
      · split at h
        · rename_i hc1 hc2 hc3 hc4
          simp only [Bool.not_eq_true] at hc1 hc2 hc3
          simp only [hc1, hc2, hc3, hc4]
          split at h
          · split at h
            · cases h; rfl
            · exact absurd h (by simp)
          · cases h; rfl
        · split at h
          · rename_i hc1 hc2 hc3 hc4 hc5
            simp only [Bool.not_eq_true] at hc1 hc2 hc3 hc4
            simp only [hc1, hc2, hc3, hc4, hc5]; cases h; rfl
          · rename_i hc1 hc2 hc3 hc4 hc5
            simp only [Bool.not_eq_true] at hc1 hc2 hc3 hc4 hc5
            simp only [hc1, hc2, hc3, hc4, hc5]
            split at h
            · rename_i v hv; cases h; simp [hv]
            · rename_i hv; cases h; simp [hv]

/-- Witness for C5 at a concrete input: the raw text `"NHI"` with no extra
cells classifies as NotHandedIn, and the ordered dispatch agrees. -/
theorem parse_status_is_ordered_dispatch_witness :
    Status.nhi = statusDispatch "NHI" :=
  parse_status_is_ordered_dispatch "NHI" [] (some 0) Status.nhi (by decide)

/-! ### Claim C4: the derived percentage of a parsed assignment -/

/-- A concrete assignment row whose total-points cell holds a negative
numeral: `float("-5")` succeeds, `-5.0` is truthy, and the code computes a
percentage even though the total points are not greater than zero. -/
def c4Cells : List Cell :=
  [⟨"09/01/2025", none⟩, ⟨"08/25/2025", none⟩, ⟨"", some "Quiz 1"⟩,
   ⟨"PRODUCT", none⟩, ⟨"10", none⟩, ⟨"-5", none⟩]

/-- Counterexample to C4 as stated: a parsed assignment with a numeric score
and total points `-5` (present but not greater than 0) carries percentage
`round(10 / -5 * 100, 2) = -200`, not null, contradicting "null in every
other case". -/
theorem assignment_percentage_negative_total_counterexample :
    (parseAssignment c4Cells).map (fun a => (a.score, a.total_points, a.percentage))
      = some (some 10, some (-5), some (-200))
    ∧ ¬ ((0 : ℚ) < -5) := by
  constructor
  · with_unfolding_all decide
  · norm_num

/-- Claim C4 (amended): for every parsed assignment, the percentage equals
`round(score / total_points * 100, 2)` whenever a numeric score is present
and total points are present and nonzero (the code's truthiness test), and
is null in every other case (missing score, missing total points, or total
points equal to 0). -/
theorem assignment_percentage_formula (cells : List Cell) (a : Assignment)
    (h : parseAssignment cells = some a) :
    a.percentage =
      match a.score, a.total_points with
      | some s, some t => if t ≠ 0 then some (round2 (s / t * 100)) else none
      | _, _ => none := by
  unfold parseAssignment at h
  split at h
  · split at h
    · dsimp only at h
      split at h
      · exact absurd h (by simp)
      · split at h
        · exact absurd h (by simp)
        · cases h; rfl
    · dsimp only at h
      simp at h
  · exact absurd h (by simp)

/-- An ordinary graded row used to witness C4. -/
def c4wCells : List Cell :=
  [⟨"09/02/2025", none⟩, ⟨"08/26/2025", none⟩, ⟨"", some "Essay"⟩,
   ⟨"PRODUCT", none⟩, ⟨"15", none⟩, ⟨"20", none⟩]

/-- The record `_parse_assignment` yields for `c4wCells`. -/
def c4wAssignment : Assignment :=
  { title := "Essay", due_date := "09/02/2025", assigned_date := "08/26/2025",
    category := "PRODUCT", raw_score := "15", score := some 15,
    total_points := some 20, status := Status.scored, percentage := some 75 }

/-- Witness for the amended C4 at a concrete row: score 15 out of 20 gives
percentage 75. -/
theorem assignment_percentage_formula_witness :
    c4wAssignment.percentage =
      match c4wAssignment.score, c4wAssignment.total_points with
      | some s, some t => if t ≠ 0 then some (round2 (s / t * 100)) else none
      | _, _ => none :=
  assignment_percentage_formula c4wCells c4wAssignment (by with_unfolding_all decide)

/-! ### Claim C3: the roster/grade merge -/

/-- The merged record for one roster entry: the (last) graded record with
that name if one exists, otherwise the zero-valued placeholder. -/
def mergeEntry (graded : List Course) (p : String × Nat) : Course :=
  (gradeFor? graded p.1).getD (placeholderCourse p.1 p.2)

theorem mergeCourses_eq_map (roster : List (String × Nat)) (graded : List Course) :
    mergeCourses roster graded = roster.map (mergeEntry graded) := by
  unfold mergeCourses mergeEntry
  refine List.map_congr_left ?_
  intro p _
  cases gradeFor? graded p.1 <;> rfl

theorem getLast?_mem_self {α : Type} (l : List α) (a : α)
    (h : l.getLast? = some a) : a ∈ l := by
  induction l with
  | nil => simp [List.getLast?] at h
  | cons x t ih =>
    cases t with
    | nil => simp [List.getLast?] at h; simp [h]
    | cons y u =>
      rw [List.getLast?_cons_cons] at h
      exact List.mem_cons_of_mem x (ih h)

theorem gradeFor?_course (graded : List Course) (n : String) (c : Course)
    (h : gradeFor? graded n = some c) : c.course = n := by
  unfold gradeFor? at h
  have hc := getLast?_mem_self _ _ h
  have := List.mem_filter.mp hc
  simpa using this.2

theorem mergeEntry_course (graded : List Course) (p : String × Nat) :
    (mergeEntry graded p).course = p.1 := by
  unfold mergeEntry
  cases h : gradeFor? graded p.1 with
  | none => rfl
  | some c => simpa using gradeFor?_course graded p.1 c h

theorem merge_filter_nil (graded : List Course) (n : String) :
    ∀ (t : List (String × Nat)), n ∉ t.map Prod.fst →
      (t.map (mergeEntry graded)).filter (fun c => c.course == n) = [] := by
  intro t
  induction t with
  | nil => intro _; rfl
  | cons q u ih =>
    intro hn
    simp only [List.map_cons, List.filter_cons]
    have hq : ¬ (mergeEntry graded q).course == n := by
      rw [mergeEntry_course]
      simp only [List.map_cons, List.mem_cons] at hn
      simp only [beq_iff_eq]
      exact fun hEq => hn (Or.inl hEq.symm)
    rw [if_neg (by simpa using hq)]
    exact ih (fun hmem => hn (by simp only [List.map_cons, List.mem_cons]; exact Or.inr hmem))

theorem merge_filter_singleton (graded : List Course) :
    ∀ (roster : List (String × Nat)) (p : String × Nat),
      (roster.map Prod.fst).Nodup → p ∈ roster →
      (mergeCourses roster graded).filter (fun c => c.course == p.1)
        = [mergeEntry graded p] := by
  intro roster
  induction roster with
  | nil => intro p _ hp; cases hp
  | cons q t ih =>
    intro p hnd hp
    rw [mergeCourses_eq_map]
    simp only [List.map_cons, List.nodup_cons, List.mem_map] at hnd
    simp only [List.map_cons]
    rcases List.mem_cons.mp hp with rfl | hpt
    · simp only [List.filter_cons]
      rw [if_pos (by simp [mergeEntry_course, beq_iff_eq])]
      rw [merge_filter_nil graded p.1 t (by
        intro hmem
        exact hnd.1 (by simpa using hmem))]
    · have hne : ¬ (mergeEntry graded q).course == p.1 := by
        rw [mergeEntry_course]
        simp only [beq_iff_eq]
        intro hEq
        exact hnd.1 ⟨p, hpt, hEq.symm⟩
      simp only [List.filter_cons]
      rw [if_neg (by simpa using hne)]
      rw [← mergeCourses_eq_map]
      exact ih p hnd.2 hpt

/-- Counterexample to C3 as stated: when the extracted roster holds the same
course name twice (two AssignmentClass divs with identical header text), the
merged list holds two entries for that name, not exactly one. -/
theorem roster_merge_duplicate_counterexample :
    ("Art", 0) ∈ extractAllCourses [some "Art", some "Art"]
    ∧ (mergeCourses (extractAllCourses [some "Art", some "Art"]) []).countP
        (fun c => c.course == "Art") = 2 := by
  constructor
  · decide
  · decide

/-- Claim C3 (amended): provided the roster names are pairwise distinct (the
merge is keyed by display name, so a duplicated roster name duplicates its
entry), every roster course name has exactly one merged entry: the last
graded record with that name, carried over unchanged, when one exists,
otherwise the zero-valued placeholder (zero counters, empty assignment list,
null percentages and dates). -/
theorem roster_merge_unique (divLinks : List (Option String)) (graded : List Course)
    (hnd : ((extractAllCourses divLinks).map Prod.fst).Nodup) :
    (∀ p ∈ extractAllCourses divLinks,
       (mergeCourses (extractAllCourses divLinks) graded).filter
           (fun c => c.course == p.1)
         = [mergeEntry graded p])
    ∧ ∀ name idx,
        (placeholderCourse name idx).total_assignments = 0
        ∧ (placeholderCourse name idx).not_hand_in = 0
        ∧ (placeholderCourse name idx).not_yet_graded = 0
        ∧ (placeholderCourse name idx).too_late_to_count = 0
        ∧ (placeholderCourse name idx).score_below_fifty = 0
        ∧ (placeholderCourse name idx).overall_percentage = none
        ∧ (placeholderCourse name idx).assignments = []
        ∧ (placeholderCourse name idx).category_breakdown = []
        ∧ (placeholderCourse name idx).hac_last_updated = none
        ∧ (placeholderCourse name idx).days_since_update = none := by
  constructor
  · intro p hp
    exact merge_filter_singleton graded _ p hnd hp
  · intro name idx
    refine ⟨rfl, rfl, rfl, rfl, rfl, rfl, rfl, rfl, rfl, rfl⟩

/-- Witness for the amended C3: a two-course roster with one graded record
merges to that record plus a placeholder. -/
theorem roster_merge_unique_witness :
    (∀ p ∈ extractAllCourses [some "Art", some "Math"],
       (mergeCourses (extractAllCourses [some "Art", some "Math"])
           [placeholderCourse "Math" 7]).filter (fun c => c.course == p.1)
         = [mergeEntry [placeholderCourse "Math" 7] p])
    ∧ ∀ name idx,
        (placeholderCourse name idx).total_assignments = 0
        ∧ (placeholderCourse name idx).not_hand_in = 0
        ∧ (placeholderCourse name idx).not_yet_graded = 0
        ∧ (placeholderCourse name idx).too_late_to_count = 0
        ∧ (placeholderCourse name idx).score_below_fifty = 0
        ∧ (placeholderCourse name idx).overall_percentage = none
        ∧ (placeholderCourse name idx).assignments = []
        ∧ (placeholderCourse name idx).category_breakdown = []
        ∧ (placeholderCourse name idx).hac_last_updated = none
        ∧ (placeholderCourse name idx).days_since_update = none :=
  roster_merge_unique [some "Art", some "Math"] [placeholderCourse "Math" 7] (by decide)

/-! ### Structure of the category statistics -/

/-- Membership of an uppercased category label among the three fixed keys. -/
def inThree (s : String) : Bool :=
  s == "PRACTICE" || s == "PROCESS" || s == "PRODUCT"

theorem strBeq_comm (a b : String) : (a == b) = (b == a) := by
  by_cases h : a = b
  · subst h; rfl
  · have h1 : (a == b) = false := by simpa [beq_iff_eq] using h
    have h2 : (b == a) = false := by simpa [beq_iff_eq] using fun e => h e.symm
    rw [h1, h2]

theorem catStep_shape (x y z : CatAcc) (a : Assignment) :
    ∃ x' y' z', catStep [("PRACTICE", x), ("PROCESS", y), ("PRODUCT", z)] a
      = [("PRACTICE", x'), ("PROCESS", y'), ("PRODUCT", z')] := by
  simp only [catStep, updateEntry]
  split_ifs <;> exact ⟨_, _, _, rfl⟩

theorem foldl_catStep_shape (l : List Assignment) :
    ∀ (x y z : CatAcc), ∃ x' y' z',
      l.foldl catStep [("PRACTICE", x), ("PROCESS", y), ("PRODUCT", z)]
        = [("PRACTICE", x'), ("PROCESS", y'), ("PRODUCT", z')] := by
  induction l with
  | nil => intro x y z; exact ⟨x, y, z, rfl⟩
  | cons a t ih =>
    intro x y z
    obtain ⟨x', y', z', hstep⟩ := catStep_shape x y z a
    simpa [List.foldl_cons, hstep] using ih x' y' z'

theorem calcCategoryStats_shape (l : List Assignment) :
    ∃ A B C : CatStat, calcCategoryStats l
      = [("PRACTICE", A), ("PROCESS", B), ("PRODUCT", C)] := by
  obtain ⟨x', y', z', h⟩ := foldl_catStep_shape l ⟨0, 0⟩ ⟨0, 0⟩ ⟨0, 0⟩
  unfold calcCategoryStats catInit
  rw [h]
  exact ⟨_, _, _, rfl⟩

theorem catStep_id_of_notQual (stats : List (String × CatAcc)) (a : Assignment)
    (h : qualifies a.status = false) : catStep stats a = stats := by
  unfold catStep
  simp [h]

theorem foldl_catStep_filter_qual (l : List Assignment) :
    ∀ s, l.foldl catStep s = (l.filter (fun a => qualifies a.status)).foldl catStep s := by
  induction l with
  | nil => intro s; rfl
  | cons a t ih =>
    intro s
    by_cases h : qualifies a.status
    · simp only [List.filter_cons, h, if_pos, List.foldl_cons]
      exact ih (catStep s a)
    · have hb : qualifies a.status = false := by simpa using h
      simp only [List.filter_cons, hb, Bool.false_eq_true, if_false, List.foldl_cons,
        catStep_id_of_notQual s a hb]
      exact ih s

theorem catStep_id_of_notInThree (x y z : CatAcc) (a : Assignment)
    (h : inThree (asciiUpper a.category) = false) :
    catStep [("PRACTICE", x), ("PROCESS", y), ("PRODUCT", z)] a
      = [("PRACTICE", x), ("PROCESS", y), ("PRODUCT", z)] := by
  unfold inThree at h
  simp only [Bool.or_eq_false_iff] at h
  unfold catStep
  have hany : (([("PRACTICE", x), ("PROCESS", y), ("PRODUCT", z)]).any
      (fun e => e.1 == asciiUpper a.category)) = false := by
    simp only [List.any_cons, List.any_nil, Bool.or_false]
    rw [strBeq_comm ("PRACTICE" : String), strBeq_comm ("PROCESS" : String),
      strBeq_comm ("PRODUCT" : String), h.1.1, h.1.2, h.2]
    rfl
  simp [hany]

theorem foldl_catStep_filter_inThree (l : List Assignment) :
    ∀ (x y z : CatAcc),
      l.foldl catStep [("PRACTICE", x), ("PROCESS", y), ("PRODUCT", z)]
        = (l.filter (fun a => inThree (asciiUpper a.category))).foldl catStep
            [("PRACTICE", x), ("PROCESS", y), ("PRODUCT", z)] := by
  induction l with
  | nil => intro x y z; rfl
  | cons a t ih =>
    intro x y z
    by_cases h : inThree (asciiUpper a.category)
    · simp only [List.filter_cons, h, if_pos, List.foldl_cons]
      obtain ⟨x', y', z', hstep⟩ := catStep_shape x y z a
      rw [hstep]
      exact ih x' y' z'
    · have hb : inThree (asciiUpper a.category) = false := by simpa using h
      simp only [List.filter_cons, hb, Bool.false_eq_true, if_false, List.foldl_cons,
        catStep_id_of_notInThree x y z a hb]
      exact ih x y z

/-! ### Claim C10: fixed category keys, foreign categories contribute nothing -/

/-- Claim C10: the category statistics always carry exactly the three keys
PRACTICE, PROCESS, PRODUCT (in that order), and an assignment whose
uppercased category label is not one of the three contributes nothing to any
category's totals, regardless of its status or score: the statistics equal
those of the list filtered to the three known categories. -/
theorem category_stats_keys_and_foreign (l : List Assignment) :
    ((calcCategoryStats l).map Prod.fst = ["PRACTICE", "PROCESS", "PRODUCT"])
    ∧ calcCategoryStats l
        = calcCategoryStats (l.filter (fun a => inThree (asciiUpper a.category))) := by
  constructor
  · obtain ⟨A, B, C, h⟩ := calcCategoryStats_shape l
    rw [h]
    rfl
  · unfold calcCategoryStats catInit
    rw [foldl_catStep_filter_inThree l ⟨0, 0⟩ ⟨0, 0⟩ ⟨0, 0⟩]

/-! ### Claim C6: category accumulation and percentage -/

/-- A row whose score is a negative numeral (category PRODUCT). -/
def rowNegScore : List Cell :=
  [⟨"09/03/2025", none⟩, ⟨"08/27/2025", none⟩, ⟨"", some "HW 1"⟩,
   ⟨"PRODUCT", none⟩, ⟨"-5", none⟩, ⟨"10", none⟩]

/-- A row whose total points are a negative numeral (category PROCESS). -/
def rowNegTotal : List Cell :=
  [⟨"09/04/2025", none⟩, ⟨"08/28/2025", none⟩, ⟨"", some "HW 2"⟩,
   ⟨"PROCESS", none⟩, ⟨"10", none⟩, ⟨"-5", none⟩]

/-- The assignment parsed from `rowNegScore`. -/
def aNegScore : Assignment :=
  { title := "HW 1", due_date := "09/03/2025", assigned_date := "08/27/2025",
    category := "PRODUCT", raw_score := "-5", score := some (-5),
    total_points := some 10, status := Status.scored, percentage := some (-50) }

/-- The assignment parsed from `rowNegTotal`. -/
def aNegTotal : Assignment :=
  { title := "HW 2", due_date := "09/04/2025", assigned_date := "08/28/2025",
    category := "PROCESS", raw_score := "10", score := some 10,
    total_points := some (-5), status := Status.scored, percentage := some (-200) }

/-- Counterexample to C6 as stated, on a two-assignment list the parser
really produces: the PROCESS category accumulates possible points `-5`
(nonzero) yet its percentage is null, so "null iff possible is 0" fails; and
the PRODUCT percentage is `-50`, outside `[0, ∞)`. -/
theorem category_stats_negative_counterexample :
    parseAssignment rowNegScore = some aNegScore
    ∧ parseAssignment rowNegTotal = some aNegTotal
    ∧ calcCategoryStats [aNegScore, aNegTotal]
        = [("PRACTICE", ⟨0, 0, none⟩), ("PROCESS", ⟨10, -5, none⟩),
           ("PRODUCT", ⟨-5, 10, some (-50)⟩)]
    ∧ (-5 : ℚ) ≠ 0 ∧ (-50 : ℚ) < 0 := by
  refine ⟨?_, ?_, ?_, by norm_num, by norm_num⟩
  · with_unfolding_all decide
  · with_unfolding_all decide
  · with_unfolding_all decide

/-- Claim C6 (amended): the per-category statistics accumulate earned and
possible points only from assignments with status in
{Scored, NotHandedIn, ScoreBelowFifty, TooLateToCount} (NotYetGraded and
Exempt contribute nothing), and each category's percentage is null iff its
accumulated possible points are not strictly positive, otherwise it equals
`round(earned / possible * 100, 2)` (which can leave `[0, ∞)` only when a
negative score was accumulated). -/
theorem category_stats_accumulation (l : List Assignment) :
    (calcCategoryStats l = calcCategoryStats (l.filter (fun a => qualifies a.status)))
    ∧ ∀ e ∈ calcCategoryStats l,
        e.2.percentage =
          if e.2.possible > (0 : ℚ) then some (round2 (e.2.earned / e.2.possible * 100))
          else none := by
  constructor
  · unfold calcCategoryStats catInit
    rw [foldl_catStep_filter_qual l]
  · intro e he
    unfold calcCategoryStats at he
    rcases List.mem_map.mp he with ⟨y, _, rfl⟩
    rfl

/-- Witness for the amended C6 at a concrete input: on the empty assignment
list, the PRACTICE entry has null percentage and zero possible points. -/
theorem category_stats_accumulation_witness :
    (calcCategoryStats ([] : List Assignment)
       = calcCategoryStats (([] : List Assignment).filter (fun a => qualifies a.status)))
    ∧ (("PRACTICE", (⟨0, 0, none⟩ : CatStat)) : String × CatStat).2.percentage =
        (if (((("PRACTICE", (⟨0, 0, none⟩ : CatStat)) : String × CatStat)).2.possible > (0 : ℚ))
         then some (round2 ((("PRACTICE", (⟨0, 0, none⟩ : CatStat)) : String × CatStat).2.earned
             / (("PRACTICE", (⟨0, 0, none⟩ : CatStat)) : String × CatStat).2.possible * 100))
         else none) :=
  ⟨(category_stats_accumulation []).1,
   (category_stats_accumulation []).2 ("PRACTICE", ⟨0, 0, none⟩) (by with_unfolding_all decide)⟩

/-! ### Claim C7: the weighted overall percentage -/

/-- The categories that contribute to the weighted percentage: those with
strictly positive possible points. -/
def contribEntries (stats : List (String × CatStat)) : List (String × CatStat) :=
  stats.filter (fun e => e.2.possible > (0 : ℚ))

/-- Spec-side weighted sum: each contributing category's fractional score
times its fixed weight. -/
def contribSum (stats : List (String × CatStat)) : ℚ :=
  ((contribEntries stats).map (fun e => e.2.earned / e.2.possible * weightOf e.1)).sum

/-- Spec-side weight total: the weights of the contributing categories. -/
def contribWeight (stats : List (String × CatStat)) : ℚ :=
  ((contribEntries stats).map (fun e => weightOf e.1)).sum

/-- Counterexample to C7 as stated: a single assignment with total points
`-5` leaves every category without strictly positive possible points, so the
weighted percentage is null — yet not every category has zero possible
points (PROCESS accumulated `-5`), refuting the claimed biconditional. -/
theorem weighted_percentage_negative_counterexample :
    calcWeightedPercentage (calcCategoryStats [aNegTotal]) = none
    ∧ ¬ (∀ e ∈ calcCategoryStats [aNegTotal], e.2.possible = 0) := by
  constructor
  · with_unfolding_all decide
  · with_unfolding_all decide

/-- Claim C7 (amended): the weighted overall percentage is null iff no
category has strictly positive possible points; when some category does, it
equals the sum over categories with possible points > 0 of
(earned/possible) times the fixed weight (Practice 0.20, Process 0.30,
Product 0.50), divided by the sum of the contributing weights, times 100,
rounded to 2 decimals. -/
theorem calcWeighted_none_iff (A B C : CatStat) :
    calcWeightedPercentage [("PRACTICE", A), ("PROCESS", B), ("PRODUCT", C)] = none
      ↔ ∀ e ∈ [("PRACTICE", A), ("PROCESS", B), ("PRODUCT", C)],
          ¬ ((0 : ℚ) < e.2.possible) := by
  have hwP : weightOf "PRACTICE" = (0.20 : ℚ) := rfl
  have hwR : weightOf "PROCESS" = (0.30 : ℚ) := rfl
  have hwD : weightOf "PRODUCT" = (0.50 : ℚ) := rfl
  by_cases hA : (0 : ℚ) < A.possible <;> by_cases hB : (0 : ℚ) < B.possible <;>
    by_cases hC : (0 : ℚ) < C.possible <;>
      simp only [calcWeightedPercentage, List.foldl_cons, List.foldl_nil,
        hwP, hwR, hwD, hA, hB, hC, gt_iff_lt, ite_true, ite_false,
        List.mem_cons, List.not_mem_nil] <;>
      split_ifs with htw <;>
      simp [hA, hB, hC] <;>
      first
        | exact ⟨le_of_not_lt hA, le_of_not_lt hB, le_of_not_lt hC⟩
        | norm_num at htw

theorem calcWeighted_formula (A B C : CatStat)
    (h : (0 : ℚ) < contribWeight [("PRACTICE", A), ("PROCESS", B), ("PRODUCT", C)]) :
    calcWeightedPercentage [("PRACTICE", A), ("PROCESS", B), ("PRODUCT", C)]
      = some (round2 (contribSum [("PRACTICE", A), ("PROCESS", B), ("PRODUCT", C)]
          / contribWeight [("PRACTICE", A), ("PROCESS", B), ("PRODUCT", C)] * 100)) := by
  have hwP : weightOf "PRACTICE" = (0.20 : ℚ) := rfl
  have hwR : weightOf "PROCESS" = (0.30 : ℚ) := rfl
  have hwD : weightOf "PRODUCT" = (0.50 : ℚ) := rfl
  by_cases hA : (0 : ℚ) < A.possible <;> by_cases hB : (0 : ℚ) < B.possible <;>
    by_cases hC : (0 : ℚ) < C.possible <;>
      simp only [calcWeightedPercentage, contribSum, contribWeight, contribEntries,
        List.foldl_cons, List.foldl_nil, List.filter_cons, List.filter_nil,
        List.map_cons, List.map_nil, List.sum_cons, List.sum_nil,
        hwP, hwR, hwD, hA, hB, hC, gt_iff_lt, decide_eq_true_eq,
        ite_true, ite_false] at h ⊢ <;>
      split_ifs with htw <;>
      first
        | (refine congrArg some ?_; refine congrArg round2 ?_; ring)
        | norm_num at htw

/-- Claim C7 (amended): the weighted overall percentage is null iff no
category has strictly positive possible points; when some category does
(equivalently, when the contributed weight is positive), it equals the sum
over categories with possible points > 0 of (earned/possible) times the
fixed weight (Practice 0.20, Process 0.30, Product 0.50), divided by the sum
of the contributing weights, times 100, rounded to 2 decimals. -/
theorem weighted_overall_percentage (l : List Assignment) :
    (calcWeightedPercentage (calcCategoryStats l) = none
       ↔ ∀ e ∈ calcCategoryStats l, ¬ ((0 : ℚ) < e.2.possible))
    ∧ ((0 : ℚ) < contribWeight (calcCategoryStats l) →
        calcWeightedPercentage (calcCategoryStats l)
          = some (round2 (contribSum (calcCategoryStats l)
              / contribWeight (calcCategoryStats l) * 100))) := by
  obtain ⟨A, B, C, hst⟩ := calcCategoryStats_shape l
  rw [hst]
  exact ⟨calcWeighted_none_iff A B C, calcWeighted_formula A B C⟩

/-- Witness for the amended C7 at a concrete input: a single PRODUCT
assignment scored 15/20 contributes weight 0.50, and the weighted percentage
follows the contributing-sum formula. -/
theorem weighted_overall_percentage_witness :
    (calcWeightedPercentage (calcCategoryStats [c4wAssignment]) = none
       ↔ ∀ e ∈ calcCategoryStats [c4wAssignment], ¬ ((0 : ℚ) < e.2.possible))
    ∧ calcWeightedPercentage (calcCategoryStats [c4wAssignment])
        = some (round2 (contribSum (calcCategoryStats [c4wAssignment])
            / contribWeight (calcCategoryStats [c4wAssignment]) * 100)) :=
  ⟨(weighted_overall_percentage [c4wAssignment]).1,
   (weighted_overall_percentage [c4wAssignment]).2 (by with_unfolding_all decide)⟩

/-! ### Unfolding lemmas for the login loop -/

theorem loginAux_step (envA : Nat → AttemptEnv) (jitter : ℚ) (r attempt calls : Nat)
    (slept : ℚ) :
    loginAux envA jitter (r + 1) attempt calls slept =
      if attempt > 0 ∧ (envA attempt).ready = false then
        loginAux envA jitter r (attempt + 1) calls (slept + retryDelays.getD attempt 240)
      else
        let slept := if attempt == 0 then slept + jitter else slept
        match (envA attempt).outcome with
        | CallOutcome.transportFail =>
          if attempt < 11 then
            loginAux envA jitter r (attempt + 1) (calls + 1)
              (slept + retryDelays.getD attempt 0)
          else { success := false, state := none, calls := calls + 1, slept := slept }
        | CallOutcome.badStatus =>
          { success := false, state := none, calls := calls + 1, slept := slept }
        | CallOutcome.errorKey =>
          { success := false, state := none, calls := calls + 1, slept := slept }
        | CallOutcome.otherError =>
          { success := false, state := none, calls := calls + 1, slept := slept }
        | CallOutcome.completed url sid iq =>
          if isSubstr "/Error" url then
            { success := false, state := none, calls := calls + 1, slept := slept }
          else if isSubstr "/LogOn" url then
            { success := false, state := none, calls := calls + 1, slept := slept }
          else
            { success := true,
              state := some
                { detectedId :=
                    match sid with
                    | some x => if x == "" then none else some x
                    | none => none,
                  initialQuarter := iq },
              calls := calls + 1, slept := slept } := rfl

theorem loginAux_terminal (envA : Nat → AttemptEnv) (jitter : ℚ) (r attempt calls : Nat)
    (slept : ℚ) (hready : (envA attempt).ready = true)
    (hout : (envA attempt).outcome ≠ CallOutcome.transportFail) :
    (loginAux envA jitter (r + 1) attempt calls slept).calls = calls + 1
    ∧ (loginAux envA jitter (r + 1) attempt calls slept).slept
        = (if attempt == 0 then slept + jitter else slept) := by
  rw [loginAux_step, if_neg (by simp [hready])]
  cases houtcome : (envA attempt).outcome with
  | transportFail => exact absurd houtcome hout
  | badStatus => exact ⟨rfl, rfl⟩
  | errorKey => exact ⟨rfl, rfl⟩
  | otherError => exact ⟨rfl, rfl⟩
  | completed url sid iq =>
    by_cases he : isSubstr "/Error" url <;> by_cases hl : isSubstr "/LogOn" url <;>
      simp [he, hl]

/-! ### Claim C9: authentication failure is terminal -/

/-- Claim C9: when the first automation call completes and its final URL
contains the error path or the login path, `login` returns failure
immediately: exactly one automation call is made, with no retry — unlike
transport failures, which are retried per schedule. -/
theorem login_failure_no_retry (envA : Nat → AttemptEnv) (jitter : ℚ)
    (url : String) (sid iq : Option String)
    (h : (envA 0).outcome = CallOutcome.completed url sid iq)
    (hurl : isSubstr "/Error" url = true ∨ isSubstr "/LogOn" url = true) :
    (loginModel envA jitter).success = false ∧ (loginModel envA jitter).calls = 1 := by
  unfold loginModel
  rw [show (12 : Nat) = 11 + 1 from rfl, loginAux_step, if_neg (by simp)]
  simp only [h]
  by_cases he : isSubstr "/Error" url
  · simp [he]
  · rcases hurl with h1 | h1
    · exact absurd h1 he
    · simp [he, h1]

/-- Environment for the C9 witness: the scripted sequence lands back on the
login page `/HomeAccess/Account/LogOn`. -/
def c9Env : Nat → AttemptEnv :=
  fun _ => { ready := true,
             outcome := CallOutcome.completed
               "https://hac.example.org/HomeAccess/Account/LogOn" none none }

/-- Environment for the C9 witness: the scripted sequence is redirected to
an error page (a URL containing `/Error` but not `/LogOn`). -/
def c9ErrEnv : Nat → AttemptEnv :=
  fun _ => { ready := true,
             outcome := CallOutcome.completed
               "https://hac.example.org/HomeAccess/Error" none none }

/-- Witness for C9, exercising both disjuncts of the antecedent: a run that
persists on the login path and a run redirected to an error path each fail
with a single automation call. -/
theorem login_failure_no_retry_witness :
    ((loginModel c9Env 3).success = false ∧ (loginModel c9Env 3).calls = 1)
    ∧ ((loginModel c9ErrEnv 3).success = false ∧ (loginModel c9ErrEnv 3).calls = 1) :=
  ⟨login_failure_no_retry c9Env 3
      "https://hac.example.org/HomeAccess/Account/LogOn" none none rfl
      (Or.inr (by decide)),
   login_failure_no_retry c9ErrEnv 3
      "https://hac.example.org/HomeAccess/Error" none none rfl
      (Or.inl (by decide))⟩

/-! ### Claim C2: the retry schedule -/

theorem sumDelays_zero : sumDelays 0 = 0 := rfl

set_option maxRecDepth 8192 in
theorem sumDelays_succ : ∀ k, k < 12 →
    sumDelays (k + 1) = sumDelays k + retryDelays.getD k 0 := by
  with_unfolding_all decide

/-- After `k` consecutive transport failures (readiness probe always live),
the login loop stands at attempt `k` with `k` automation calls spent and the
jitter plus the first `k` scheduled delays slept. -/
theorem loginAux_run (envA : Nat → AttemptEnv) (jitter : ℚ)
    (hready : ∀ i, (envA i).ready = true) :
    ∀ k, 1 ≤ k → k ≤ 11 →
      (∀ i, i < k → (envA i).outcome = CallOutcome.transportFail) →
      loginModel envA jitter
        = loginAux envA jitter (12 - k) k k (jitter + sumDelays k) := by
  intro k
  induction k with
  | zero => intro h; omega
  | succ n ih =>
    intro _ h2 hfail
    cases Nat.eq_zero_or_pos n with
    | inl hn0 =>
      subst hn0
      unfold loginModel
      rw [show (12 : Nat) = 11 + 1 from rfl, loginAux_step, if_neg (by simp)]
      simp only [hfail 0 (by omega)]
      rw [if_pos (by omega)]
      have harith : (0 : ℚ) + jitter + retryDelays.getD 0 0 = jitter + sumDelays 1 := by
        rw [sumDelays_succ 0 (by omega), sumDelays_zero]
        ring
      simp only [show ((0 : Nat) == 0) = true from rfl, ite_true]
      rw [harith]
    | inr hn1 =>
      have hstep := ih (by omega) (by omega) (fun i hi => hfail i (by omega))
      rw [hstep]
      rw [show 12 - n = (11 - n) + 1 by omega, loginAux_step,
        if_neg (by simp [hready n])]
      simp only [hfail n (by omega)]
      rw [if_pos (by omega)]
      have hn0 : (n == 0) = false := by rw [beq_eq_false_iff_ne]; omega
      rw [hn0]
      simp only [Bool.false_eq_true, if_false]
      have harith : jitter + sumDelays n + retryDelays.getD n 0
          = jitter + sumDelays (n + 1) := by
        rw [sumDelays_succ n (by omega)]
        ring
      rw [harith, show 11 - n = 12 - (n + 1) by omega]

/-- Claim C2 (both halves): with the backend probe always live and a
bounded-below stagger jitter, (a) for `N < 12` consecutive transport
failures followed by any non-transport outcome, `login` makes exactly `N+1`
automation calls and sleeps at least the sum of the first `N` scheduled
delays; (b) after 12 consecutive transport failures it returns failure with
exactly 12 automation calls — no 13th attempt. -/
theorem login_retry_schedule (envA : Nat → AttemptEnv) (jitter : ℚ)
    (hj : 0 ≤ jitter) (hready : ∀ i, (envA i).ready = true) :
    (∀ N, N < 12 →
      (∀ i, i < N → (envA i).outcome = CallOutcome.transportFail) →
      (envA N).outcome ≠ CallOutcome.transportFail →
      (loginModel envA jitter).calls = N + 1
        ∧ sumDelays N ≤ (loginModel envA jitter).slept)
    ∧ ((∀ i, i < 12 → (envA i).outcome = CallOutcome.transportFail) →
      (loginModel envA jitter).success = false
        ∧ (loginModel envA jitter).calls = 12) := by
  constructor
  · intro N hN hfail hstop
    cases Nat.eq_zero_or_pos N with
    | inl hN0 =>
      subst hN0
      unfold loginModel
      rw [show (12 : Nat) = 11 + 1 from rfl]
      obtain ⟨hc, hs⟩ := loginAux_terminal envA jitter 11 0 0 0 (hready 0) hstop
      refine ⟨hc, ?_⟩
      rw [hs, sumDelays_zero]
      simpa using hj
    | inr hN1 =>
      rw [loginAux_run envA jitter hready N hN1 (by omega) hfail]
      rw [show 12 - N = (11 - N) + 1 by omega]
      obtain ⟨hc, hs⟩ :=
        loginAux_terminal envA jitter (11 - N) N N (jitter + sumDelays N)
          (hready N) hstop
      refine ⟨hc, ?_⟩
      rw [hs]
      have hN0 : (N == 0) = false := by rw [beq_eq_false_iff_ne]; omega
      rw [hN0]
      simp only [Bool.false_eq_true, if_false]
      linarith
  · intro hfail
    rw [loginAux_run envA jitter hready 11 (by omega) (by omega)
      (fun i hi => hfail i (by omega))]
    rw [show 12 - 11 = 0 + 1 by omega, loginAux_step, if_neg (by simp [hready 11])]
    simp only [hfail 11 (by omega)]
    rw [if_neg (by omega)]
    exact ⟨rfl, rfl⟩

/-- Environment for the C2 witness: two transport failures, then a
successful browser run. -/
def c2Env : Nat → AttemptEnv :=
  fun i =>
    { ready := true,
      outcome :=
        if i < 2 then CallOutcome.transportFail
        else CallOutcome.completed
          "https://hac.example.org/HomeAccess/Content/Student/Assignments.aspx"
          (some "12345") (some "Q2") }

/-- Witness for C2 at a concrete environment (N = 2, jitter 3): three
automation calls, at least 15 time units slept; and under an all-failing
environment, failure after exactly 12 calls. -/
theorem login_retry_schedule_witness :
    ((loginModel c2Env 3).calls = 2 + 1 ∧ sumDelays 2 ≤ (loginModel c2Env 3).slept)
    ∧ ((loginModel (fun _ => ⟨true, CallOutcome.transportFail⟩) 3).success = false
        ∧ (loginModel (fun _ => ⟨true, CallOutcome.transportFail⟩) 3).calls = 12) :=
  ⟨(login_retry_schedule c2Env 3 (by norm_num) (fun i => rfl)).1 2 (by omega)
      (fun i hi => by
        have : i < 2 := hi
        simp [c2Env, this])
      (by simp [c2Env]),
   (login_retry_schedule (fun _ => ⟨true, CallOutcome.transportFail⟩) 3 (by norm_num)
      (fun i => rfl)).2 (fun i _ => rfl)⟩

/-! ### Claim C8: partial period failure tolerance -/

theorem fq_outcome_of_requestedNone (ctx : Ctx) (st : ClientState) (q : String)
    (hreq : ctx.requestedId = none) (hiq : st.initialQuarter = none) :
    (fetchQuarterGrades ctx st q).1.initialQuarter = none
    ∧ (fetchQuarterGrades ctx st q).2
        = (match ctx.env q with
           | none => Except.error ("Failed to fetch HTML for " ++ q)
           | some doc => Except.ok (processDoc ctx doc)) := by
  unfold fetchQuarterGrades
  have hcond : ¬ (st.initialQuarter = some q ∧ st.initialDoc.isSome) := by
    rw [hiq]; rintro ⟨hcontra, _⟩; cases hcontra
  rw [if_neg hcond]
  cases henv : ctx.env q with
  | none => exact ⟨hiq, rfl⟩
  | some doc =>
    cases hdet : st.detectedId with
    | some d =>
      simp only [hdet, Option.isNone_some, Bool.false_eq_true, if_false]
      exact ⟨hiq, by trivial⟩
    | none =>
      simp only [hdet, Option.isNone_none, if_true]
      cases hsid : doc.extractedStudentId with
      | none => exact ⟨hiq, by trivial⟩
      | some d =>
        dsimp only
        by_cases hde : d = ""
        · rw [if_pos hde]
          exact ⟨hiq, by trivial⟩
        · rw [if_neg hde, hreq]
          exact ⟨hiq, by trivial⟩

theorem fg_fold_of_requestedNone (ctx : Ctx) (hreq : ctx.requestedId = none) :
    ∀ (qs : List String) (st : ClientState) (acc : List (String × QuarterData)),
      st.initialQuarter = none →
      (qs.foldl (fgStep ctx) (st, acc)).2
          = acc ++ qs.filterMap
              (fun q => (ctx.env q).map (fun doc => (q, processDoc ctx doc)))
      ∧ (qs.foldl (fgStep ctx) (st, acc)).1.initialQuarter = none := by
  intro qs
  induction qs with
  | nil => intro st acc hiq; exact ⟨by simp, hiq⟩
  | cons q t ih =>
    intro st acc hiq
    obtain ⟨hiq', hout⟩ := fq_outcome_of_requestedNone ctx st q hreq hiq
    simp only [List.foldl_cons, List.filterMap_cons]
    cases henv : ctx.env q with
    | none =>
      rw [henv] at hout
      have hstep : fgStep ctx (st, acc) q = ((fetchQuarterGrades ctx st q).1, acc) := by
        unfold fgStep
        dsimp only
        rw [hout]
      rw [hstep]
      simp only [Option.map_none']
      exact ih (fetchQuarterGrades ctx st q).1 acc hiq'
    | some doc =>
      rw [henv] at hout
      have hstep : fgStep ctx (st, acc) q
          = ((fetchQuarterGrades ctx st q).1, acc ++ [(q, processDoc ctx doc)]) := by
        unfold fgStep
        dsimp only
        rw [hout]
      rw [hstep]
      simp only [Option.map_some']
      obtain ⟨h1, h2⟩ := ih (fetchQuarterGrades ctx st q).1 (acc ++ [(q, processDoc ctx doc)]) hiq'
      refine ⟨?_, h2⟩
      rw [h1, List.append_assoc]
      rfl

theorem filterMap_keys (ctx : Ctx) :
    ∀ qs : List String,
      (qs.filterMap (fun q => (ctx.env q).map (fun doc => (q, processDoc ctx doc)))).map
          Prod.fst
        = qs.filter (fun q => (ctx.env q).isSome) := by
  intro qs
  induction qs with
  | nil => rfl
  | cons q t ih =>
    simp only [List.filterMap_cons, List.filter_cons]
    cases henv : ctx.env q with
    | none => simpa using ih
    | some doc => simpa using ih

theorem filterMap_ne_nil_iff (ctx : Ctx) :
    ∀ qs : List String,
      (qs.filterMap (fun q => (ctx.env q).map (fun doc => (q, processDoc ctx doc))) ≠ []
        ↔ ∃ q ∈ qs, (ctx.env q).isSome) := by
  intro qs
  induction qs with
  | nil => simp
  | cons q t ih =>
    simp only [List.filterMap_cons]
    cases henv : ctx.env q with
    | none =>
      simp only [Option.map_none']
      rw [ih]
      simp [henv]
    | some doc =>
      simp only [Option.map_some']
      simp [henv]

/-- Claim C8: given a logged-in state and no configured student id, the
fetch succeeds iff at least one of the four quarters yields a document, and
on success the result holds exactly the successful quarters, in order;
when zero quarters succeed the fetch returns failure. -/
theorem fetch_partial_periods (ctx : Ctx) (st : ClientState)
    (hc : st.cookies = true) (hreq : ctx.requestedId = none)
    (hiq : st.initialQuarter = none) :
    (exceptOk (fetchGrades ctx st).2 = true ↔ ∃ q ∈ quartersList, (ctx.env q).isSome)
    ∧ ∀ res, (fetchGrades ctx st).2 = Except.ok res →
        res.quarters.map Prod.fst = quartersList.filter (fun q => (ctx.env q).isSome) := by
  obtain ⟨hfold, _⟩ := fg_fold_of_requestedNone ctx hreq quartersList st [] hiq
  unfold fetchGrades
  rw [hc]
  simp only [ite_true]
  rw [List.nil_append] at hfold
  constructor
  · by_cases hempty : (quartersList.foldl (fgStep ctx) (st, [])).2.isEmpty
    · rw [if_pos hempty]
      have : quartersList.filterMap
          (fun q => (ctx.env q).map (fun doc => (q, processDoc ctx doc))) = [] := by
        rw [← hfold]
        exact List.isEmpty_iff.mp hempty
      constructor
      · intro hok; exact absurd hok (by simp [exceptOk])
      · intro hex
        exact absurd this ((filterMap_ne_nil_iff ctx quartersList).mpr hex)
    · rw [if_neg hempty]
      constructor
      · intro _
        refine (filterMap_ne_nil_iff ctx quartersList).mp ?_
        rw [← hfold]
        simpa [List.isEmpty_iff] using hempty
      · intro _; rfl
  · intro res hres
    by_cases hempty : (quartersList.foldl (fgStep ctx) (st, [])).2.isEmpty
    · rw [if_pos hempty] at hres
      cases hres
    · rw [if_neg hempty] at hres
      have hq : res.quarters = (quartersList.foldl (fgStep ctx) (st, [])).2 := by
        cases hres; rfl
      rw [hq, hfold, filterMap_keys]

/-- Environment for the C8 witness: quarters Q2 and Q4 yield a document,
Q1 and Q3 fail. -/
def c8Doc : Doc :=
  { extractedStudentId := none, courseDivs := [some "Math"], graded := [] }

def c8Ctx : Ctx :=
  { requestedId := none,
    env := fun q => if q == "Q2" || q == "Q4" then some c8Doc else none,
    loginFn := fun _ => none,
    daysSince := fun _ => 0 }

def c8State : ClientState :=
  { cookies := true, detectedId := none, initialQuarter := none, initialDoc := none }

/-- Witness for C8: with exactly Q2 and Q4 failing-free, the fetch succeeds
and carries exactly those two quarters. -/
theorem fetch_partial_periods_witness :
    (exceptOk (fetchGrades c8Ctx c8State).2 = true
      ↔ ∃ q ∈ quartersList, (c8Ctx.env q).isSome)
    ∧ ∀ res, (fetchGrades c8Ctx c8State).2 = Except.ok res →
        res.quarters.map Prod.fst = quartersList.filter (fun q => (c8Ctx.env q).isSome) :=
  fetch_partial_periods c8Ctx c8State rfl rfl rfl

/-! ### Claim C1: the identity-mismatch check -/

theorem fq_mismatch_records_id (ctx : Ctx) (st : ClientState) (q : String)
    (doc : Doc) (d s : String)
    (hiq : st.initialQuarter = none) (hdet : st.detectedId = none)
    (henv : ctx.env q = some doc) (hsid : doc.extractedStudentId = some d)
    (hreq : ctx.requestedId = some s) (hs : s ≠ "") (hdne : d ≠ "") (hd : s ≠ d) :
    fetchQuarterGrades ctx st q
      = ({ st with detectedId := some d },
         Except.error ("Student ID mismatch. Expected " ++ s ++ ", found " ++ d)) := by
  unfold fetchQuarterGrades
  have hcond : ¬ (st.initialQuarter = some q ∧ st.initialDoc.isSome) := by
    rw [hiq]; rintro ⟨hcontra, _⟩; cases hcontra
  rw [if_neg hcond, henv]
  simp only [hdet, Option.isNone_none, if_true, hsid, hreq]
  rw [if_neg hdne]
  rw [if_pos ⟨hs, hd⟩]

theorem fq_skips_check_once_detected (ctx : Ctx) (st : ClientState) (q : String)
    (doc : Doc) (d : String)
    (hiq : st.initialQuarter = none) (hdet : st.detectedId = some d)
    (henv : ctx.env q = some doc) :
    fetchQuarterGrades ctx st q = (st, Except.ok (processDoc ctx doc)) := by
  unfold fetchQuarterGrades
  have hcond : ¬ (st.initialQuarter = some q ∧ st.initialDoc.isSome) := by
    rw [hiq]; rintro ⟨hcontra, _⟩; cases hcontra
  rw [if_neg hcond, henv]
  simp only [hdet, Option.isNone_some, Bool.false_eq_true, if_false]

/-- Claim C1 (amended): when no identity is known yet and every quarter's
document carries a detected identity `d` differing from the nonempty
requested identity `s`, only the first quarter fails with the
identity-mismatch error — the detected identity is recorded before the
comparison, so later quarters skip the check entirely — and the fetch as a
whole still succeeds, returning the remaining three quarters. -/
theorem identity_mismatch_once_not_terminal (ctx : Ctx) (st : ClientState)
    (d s : String) (docOf : String → Doc)
    (hc : st.cookies = true) (hdet : st.detectedId = none)
    (hiq : st.initialQuarter = none)
    (hreq : ctx.requestedId = some s) (hs : s ≠ "") (hdne : d ≠ "") (hd : s ≠ d)
    (henv : ∀ q, ctx.env q = some (docOf q))
    (hsid : ∀ q, (docOf q).extractedStudentId = some d) :
    (fetchQuarterGrades ctx st "Q1").2
        = Except.error ("Student ID mismatch. Expected " ++ s ++ ", found " ++ d)
    ∧ ∃ res, (fetchGrades ctx st).2 = Except.ok res
        ∧ res.quarters.map Prod.fst = ["Q2", "Q3", "Q4"] := by
  have h1 := fq_mismatch_records_id ctx st "Q1" (docOf "Q1") d s hiq hdet
    (henv "Q1") (hsid "Q1") hreq hs hdne hd
  constructor
  · rw [h1]
  · set st1 : ClientState := { st with detectedId := some d } with hst1
    have hiq1 : st1.initialQuarter = none := hiq
    have hdet1 : st1.detectedId = some d := rfl
    have h2 := fq_skips_check_once_detected ctx st1 "Q2" (docOf "Q2") d hiq1 hdet1 (henv "Q2")
    have h3 := fq_skips_check_once_detected ctx st1 "Q3" (docOf "Q3") d hiq1 hdet1 (henv "Q3")
    have h4 := fq_skips_check_once_detected ctx st1 "Q4" (docOf "Q4") d hiq1 hdet1 (henv "Q4")
    have hfold : quartersList.foldl (fgStep ctx) (st, [])
        = (st1, [("Q2", processDoc ctx (docOf "Q2")), ("Q3", processDoc ctx (docOf "Q3")),
                 ("Q4", processDoc ctx (docOf "Q4"))]) := by
      unfold quartersList
      simp only [List.foldl_cons, List.foldl_nil]
      have s1 : fgStep ctx (st, []) "Q1" = (st1, []) := by
        unfold fgStep
        dsimp only
        rw [h1]
      rw [s1]
      have s2 : fgStep ctx (st1, []) "Q2" = (st1, [("Q2", processDoc ctx (docOf "Q2"))]) := by
        unfold fgStep
        dsimp only
        rw [h2]
        rfl
      rw [s2]
      have s3 : fgStep ctx (st1, [("Q2", processDoc ctx (docOf "Q2"))]) "Q3"
          = (st1, [("Q2", processDoc ctx (docOf "Q2")), ("Q3", processDoc ctx (docOf "Q3"))]) := by
        unfold fgStep
        dsimp only
        rw [h3]
        rfl
      rw [s3]
      unfold fgStep
      dsimp only
      rw [h4]
      rfl
    unfold fetchGrades
    rw [hc]
    simp only [ite_true]
    rw [hfold]
    refine ⟨_, rfl, rfl⟩

/-- The scenario of the C1 counterexample: requested student 111, every
quarter's document detecting student 222. -/
def c1Doc : Doc :=
  { extractedStudentId := some "222", courseDivs := [some "Math"], graded := [] }

def c1Ctx : Ctx :=
  { requestedId := some "111",
    env := fun _ => some c1Doc,
    loginFn := fun _ => none,
    daysSince := fun _ => 0 }

def c1State : ClientState :=
  { cookies := true, detectedId := none, initialQuarter := none, initialDoc := none }

/-- Counterexample to C1 as stated: although the detected identity (222)
differs from the requested identity (111), the whole fetch does NOT fail —
the first quarter reports the identity mismatch, the detected identity is
recorded, the three remaining quarters skip the comparison and succeed, and
the overall call returns success with quarters Q2-Q4. -/
theorem identity_mismatch_counterexample :
    (fetchQuarterGrades c1Ctx c1State "Q1").2
        = Except.error "Student ID mismatch. Expected 111, found 222"
    ∧ exceptOk (fetchGrades c1Ctx c1State).2 = true
    ∧ ((fetchGrades c1Ctx c1State).2.toOption.map (fun res => res.quarters.map Prod.fst))
        = some ["Q2", "Q3", "Q4"] := by
  refine ⟨?_, ?_, ?_⟩
  · with_unfolding_all rfl
  · with_unfolding_all decide
  · with_unfolding_all decide

/-- Witness for the amended C1 at the same concrete scenario. -/
theorem identity_mismatch_once_not_terminal_witness :
    (fetchQuarterGrades c1Ctx c1State "Q1").2
        = Except.error ("Student ID mismatch. Expected " ++ "111" ++ ", found " ++ "222")
    ∧ ∃ res, (fetchGrades c1Ctx c1State).2 = Except.ok res
        ∧ res.quarters.map Prod.fst = ["Q2", "Q3", "Q4"] :=
  identity_mismatch_once_not_terminal c1Ctx c1State "222" "111" (fun _ => c1Doc)
    rfl rfl rfl rfl (by decide) (by decide) (by decide) (fun _ => rfl) (fun _ => rfl)

end HacGrades
